import Mathlib

/-!
Verification of the `python_awair` client library.

The Python source is shallowly embedded: Python `dict[str, _]` values become
insertion-ordered association lists with unique keys, fallible constructions
return `Option`/`Except`, and `datetime` instants are integer epoch seconds
(a `timedelta(hours=h)` is `3600 * h` seconds).
-/

set_option autoImplicit false

namespace PythonAwair

universe u

variable {α : Type u}

/-- A Python `dict[str, α]`: an insertion-ordered association list.  Python
dicts never hold two pairs with the same key; theorems that depend on that
take a `List.Nodup` hypothesis on the keys. -/
abbrev PyDict (α : Type u) := List (String × α)

/-- `d[k]` / `d.get(k)` — the value stored under `k`, if any. -/
def dget : PyDict α → String → Option α
  | [], _ => none
  | (k', v) :: rest, k => if k' = k then some v else dget rest k

/-- `d[k] = v` — replace in place when `k` is present, else append. -/
def dset : PyDict α → String → α → PyDict α
  | [], k, v => [(k, v)]
  | (k', v') :: rest, k, v =>
    if k' = k then (k', v) :: rest else (k', v') :: dset rest k v

/-- `del d[k]` — drop the pair stored under `k`. -/
def ddel : PyDict α → String → PyDict α
  | [], _ => []
  | (k', v') :: rest, k =>
    if k' = k then ddel rest k else (k', v') :: ddel rest k

/-- `d.keys()` in iteration order. -/
def dkeys (d : PyDict α) : List String := d.map Prod.fst

@[simp] theorem dkeys_nil : dkeys ([] : PyDict α) = [] := rfl

@[simp] theorem dkeys_cons (k : String) (v : α) (rest : PyDict α) :
    dkeys ((k, v) :: rest) = k :: dkeys rest := rfl

theorem dget_dset_self (d : PyDict α) (k : String) (v : α) :
    dget (dset d k v) k = some v := by
  induction d with
  | nil => simp [dset, dget]
  | cons p rest ih =>
    obtain ⟨k', v'⟩ := p
    by_cases h : k' = k <;> simp [dset, dget, h, ih]

theorem dget_dset_ne (d : PyDict α) {k' k : String} (v : α) (h : k' ≠ k) :
    dget (dset d k' v) k = dget d k := by
  induction d with
  | nil => simp [dset, dget, h]
  | cons p rest ih =>
    obtain ⟨k₁, v₁⟩ := p
    by_cases h₁ : k₁ = k'
    · subst h₁; simp [dset, dget, h]
    · simp [dset, dget, h₁, ih]

theorem dget_ddel_self (d : PyDict α) (k : String) :
    dget (ddel d k) k = none := by
  induction d with
  | nil => simp [ddel, dget]
  | cons p rest ih =>
    obtain ⟨k₁, v₁⟩ := p
    by_cases h : k₁ = k <;> simp [ddel, dget, h, ih]

theorem dget_ddel_ne (d : PyDict α) {k' k : String} (h : k' ≠ k) :
    dget (ddel d k') k = dget d k := by
  induction d with
  | nil => simp [ddel, dget]
  | cons p rest ih =>
    obtain ⟨k₁, v₁⟩ := p
    by_cases h₁ : k₁ = k'
    · have h₂ : ¬k₁ = k := by rw [h₁]; exact h
      simp [ddel, dget, h₁, h₂, h, ih]
    · by_cases h₂ : k₁ = k <;>
        simp [ddel, dget, h₁, h₂, h, Ne.symm h, ih]

theorem dget_mem {d : PyDict α} {k : String} {v : α} (h : dget d k = some v) :
    (k, v) ∈ d := by
  induction d with
  | nil => simp [dget] at h
  | cons p rest ih =>
    obtain ⟨k₁, v₁⟩ := p
    by_cases h₁ : k₁ = k
    · subst h₁
      simp [dget] at h
      simp [h]
    · simp [dget, h₁] at h
      exact List.mem_cons_of_mem _ (ih h)

theorem mem_dkeys {d : PyDict α} {k : String} {v : α} (h : (k, v) ∈ d) :
    k ∈ dkeys d := by
  simpa [dkeys] using ⟨v, h⟩

theorem mem_dget_isSome {d : PyDict α} {k : String} {v : α} (h : (k, v) ∈ d) :
    ∃ u, dget d k = some u := by
  induction d with
  | nil => simp at h
  | cons p rest ih =>
    obtain ⟨k₁, v₁⟩ := p
    by_cases hk : k₁ = k
    · exact ⟨v₁, by simp [dget, hk]⟩
    · rcases List.mem_cons.mp h with h₁ | h₁
      · exact absurd (congrArg Prod.fst h₁).symm hk
      · obtain ⟨u, hu⟩ := ih h₁
        exact ⟨u, by simp [dget, hk, hu]⟩

theorem mem_dget {d : PyDict α} {k : String} {v : α}
    (hnd : (dkeys d).Nodup) (h : (k, v) ∈ d) : dget d k = some v := by
  induction d with
  | nil => simp at h
  | cons p rest ih =>
    obtain ⟨k₁, v₁⟩ := p
    rw [dkeys_cons, List.nodup_cons] at hnd
    rcases List.mem_cons.mp h with h₁ | h₁
    · obtain ⟨hk, hv⟩ := Prod.mk.injEq .. ▸ h₁
      simp [dget, hk.symm, hv.symm]
    · have hk : k₁ ≠ k := fun hcontra => hnd.1 (hcontra ▸ mem_dkeys h₁)
      simp [dget, hk, ih hnd.2 h₁]

/-- Modelled from the spec: the fixed sensor alias table.  `attrdict.py`
reads it as `const.SENSOR_TO_ALIAS`, but the `const.py` present in the
source tree does not define it; the table contents are the spec's data-model
section ("Fixed table: temp→temperature, humid→humidity, co2→carbon_dioxide,
voc→volatile_organic_compounds, pm25→particulate_matter_2_5,
lux→illuminance, spl_a→sound_pressure_level"). -/
def SENSOR_TO_ALIAS : PyDict String :=
  [("temp", "temperature"),
   ("humid", "humidity"),
   ("co2", "carbon_dioxide"),
   ("voc", "volatile_organic_compounds"),
   ("pm25", "particulate_matter_2_5"),
   ("lux", "illuminance"),
   ("spl_a", "sound_pressure_level")]

/-- One iteration of the loop in `AttrDict.__init__` (attrdict.py:14-17):
if the input key is in the alias table, store the value under the aliased
name and delete the raw key from the accumulating dict. -/
def attrStep (new_attrs : PyDict α) (kv : String × α) : PyDict α :=
  match dget SENSOR_TO_ALIAS kv.1 with
  | some aliased => ddel (dset new_attrs aliased kv.2) kv.1
  | none => new_attrs

/-- `AttrDict.__init__` (attrdict.py:11-19): start from a copy of the input
mapping and run `attrStep` over the input's items. -/
def attrDictInit (attrs : PyDict α) : PyDict α :=
  attrs.foldl attrStep attrs

theorem alias_table_mem {k a : String} (h : dget SENSOR_TO_ALIAS k = some a) :
    (k, a) ∈ SENSOR_TO_ALIAS := dget_mem h

/-- No aliased name is itself a raw key of the table. -/
theorem alias_not_raw {k a : String} (h : dget SENSOR_TO_ALIAS k = some a) :
    dget SENSOR_TO_ALIAS a = none := by
  have hmem := alias_table_mem h
  have htab : ∀ p ∈ SENSOR_TO_ALIAS, dget SENSOR_TO_ALIAS p.2 = none := by
    decide
  exact htab (k, a) hmem

/-- The alias table maps distinct raw keys to distinct aliased names. -/
theorem alias_table_inj {k k' a : String}
    (h : dget SENSOR_TO_ALIAS k = some a)
    (h' : dget SENSOR_TO_ALIAS k' = some a) : k = k' := by
  have hmem := alias_table_mem h
  have hmem' := alias_table_mem h'
  have htab : ∀ p ∈ SENSOR_TO_ALIAS, ∀ q ∈ SENSOR_TO_ALIAS,
      p.2 = q.2 → p.1 = q.1 := by decide
  exact htab (k, a) hmem (k', a) hmem' rfl

theorem raw_ne_aliased {k a : String}
    (h : dget SENSOR_TO_ALIAS k = some a) : k ≠ a := by
  intro hcontra
  subst hcontra
  rw [alias_not_raw h] at h
  exact Option.noConfusion h

/-- A raw key of the alias table never survives the `AttrDict` loop: once
processed it is deleted, and later iterations only ever write aliased
names, which are never raw keys. -/
theorem foldl_attrStep_raw_absent {k a : String}
    (hk : dget SENSOR_TO_ALIAS k = some a) :
    ∀ (items : List (String × α)) (d : PyDict α),
      (k ∈ dkeys items ∨ dget d k = none) →
      dget (items.foldl attrStep d) k = none := by
  intro items
  induction items with
  | nil =>
    intro d h
    rcases h with h | h
    · simp at h
    · simpa using h
  | cons p rest ih =>
    intro d h
    obtain ⟨k₁, v₁⟩ := p
    rw [List.foldl_cons]
    by_cases hk₁ : k₁ = k
    · subst hk₁
      apply ih
      right
      simp only [attrStep, hk]
      exact dget_ddel_self _ _
    · apply ih
      rcases h with h | h
      · left
        rw [dkeys_cons, List.mem_cons] at h
        rcases h with h | h
        · exact absurd h.symm hk₁
        · exact h
      · right
        cases ha₁ : dget SENSOR_TO_ALIAS k₁ with
        | none => simpa only [attrStep, ha₁] using h
        | some a₁ =>
          have hne : a₁ ≠ k := by
            intro hcontra
            rw [hcontra] at ha₁
            rw [alias_not_raw ha₁] at hk
            exact Option.noConfusion hk
          simp only [attrStep, ha₁]
          rw [dget_ddel_ne _ hk₁, dget_dset_ne _ _ hne]
          exact h

/-- The value stored under a non-raw key is untouched by iterations whose
raw keys do not alias to it. -/
theorem foldl_attrStep_preserves {a : String}
    (ha : dget SENSOR_TO_ALIAS a = none) :
    ∀ (items : List (String × α)) (d : PyDict α),
      (∀ kv ∈ items, dget SENSOR_TO_ALIAS kv.1 ≠ some a) →
      dget (items.foldl attrStep d) a = dget d a := by
  intro items
  induction items with
  | nil => intro d _; simp
  | cons p rest ih =>
    intro d h
    obtain ⟨k₁, v₁⟩ := p
    rw [List.foldl_cons]
    rw [ih _ (fun kv hkv => h kv (List.mem_cons_of_mem _ hkv))]
    cases ha₁ : dget SENSOR_TO_ALIAS k₁ with
    | none => simp only [attrStep, ha₁]
    | some a₁ =>
      have hne₁ : k₁ ≠ a := by
        intro hcontra
        rw [hcontra, ha] at ha₁
        exact Option.noConfusion ha₁
      have hne₂ : a₁ ≠ a := by
        intro hcontra
        exact h (k₁, v₁) (List.mem_cons_self _ _) (by simp [ha₁, hcontra])
      simp only [attrStep, ha₁]
      rw [dget_ddel_ne _ hne₁, dget_dset_ne _ _ hne₂]

/-- Processing the item `(k, v)` of a raw key `k` stores `v` under the
aliased name, and no later iteration can change that. -/
theorem foldl_attrStep_alias_value {k a : String} {v : α}
    (hk : dget SENSOR_TO_ALIAS k = some a) :
    ∀ (items : List (String × α)) (d : PyDict α),
      (dkeys items).Nodup → (k, v) ∈ items →
      (∀ kv ∈ items, kv.1 ≠ k → dget SENSOR_TO_ALIAS kv.1 ≠ some a) →
      dget (items.foldl attrStep d) a = some v := by
  intro items
  induction items with
  | nil => intro d _ hmem _; simp at hmem
  | cons p rest ih =>
    intro d hnd hmem h
    obtain ⟨k₁, v₁⟩ := p
    rw [dkeys_cons, List.nodup_cons] at hnd
    rw [List.foldl_cons]
    by_cases hk₁ : k₁ = k
    · subst hk₁
      have hv : v₁ = v := by
        rcases List.mem_cons.mp hmem with h₁ | h₁
        · exact (congrArg Prod.snd h₁).symm
        · exact absurd (mem_dkeys h₁) hnd.1
      subst hv
      rw [foldl_attrStep_preserves (alias_not_raw hk) rest _
        (fun kv hkv => by
          refine h kv (List.mem_cons_of_mem _ hkv) ?_
          intro hcontra
          exact hnd.1 (hcontra ▸ mem_dkeys hkv))]
      simp only [attrStep, hk]
      rw [dget_ddel_ne _ (raw_ne_aliased hk), dget_dset_self]
    · have hmem' : (k, v) ∈ rest := by
        rcases List.mem_cons.mp hmem with h₁ | h₁
        · exact absurd (congrArg Prod.fst h₁).symm hk₁
        · exact h₁
      exact ih _ hnd.2 hmem'
        (fun kv hkv => h kv (List.mem_cons_of_mem _ hkv))

/-- Claim C1 (amended): for an input mapping with unique keys, every raw
key of the alias table that is present is exposed only under its aliased
name with its original value, and the raw key is absent from the result;
every key outside the table that is not itself the aliased name of a
present raw key passes through unchanged. -/
theorem C1_attrdict_alias_normalization (attrs : PyDict α)
    (hnd : (dkeys attrs).Nodup) :
    (∀ k a v, dget SENSOR_TO_ALIAS k = some a → dget attrs k = some v →
      dget (attrDictInit attrs) k = none ∧ dget (attrDictInit attrs) a = some v)
    ∧ (∀ k, dget SENSOR_TO_ALIAS k = none →
        (∀ k', dget SENSOR_TO_ALIAS k' = some k → dget attrs k' = none) →
        dget (attrDictInit attrs) k = dget attrs k) := by
  constructor
  · intro k a v hk hv
    refine ⟨foldl_attrStep_raw_absent hk attrs attrs
      (Or.inl (mem_dkeys (dget_mem hv))), ?_⟩
    apply foldl_attrStep_alias_value hk attrs attrs hnd (dget_mem hv)
    intro kv _ hne hcontra
    exact hne (alias_table_inj hcontra hk)
  · intro k hk hno
    apply foldl_attrStep_preserves hk attrs attrs
    intro kv hkv hcontra
    obtain ⟨k', v'⟩ := kv
    obtain ⟨u, hu⟩ := mem_dget_isSome hkv
    rw [hno k' hcontra] at hu
    exact Option.noConfusion hu

/-- Concrete run of claim C1's theorem: `temp` is aliased to
`temperature`, and the unknown key `dust` survives unchanged. -/
theorem C1_attrdict_alias_normalization_witness :
    dget (attrDictInit [("temp", (7 : Int)), ("dust", 9)]) "temp" = none
    ∧ dget (attrDictInit [("temp", (7 : Int)), ("dust", 9)]) "temperature"
        = some 7
    ∧ dget (attrDictInit [("temp", (7 : Int)), ("dust", 9)]) "dust" = some 9
    := by
  obtain ⟨h1, h2⟩ :=
    C1_attrdict_alias_normalization [("temp", (7 : Int)), ("dust", 9)]
      (by decide)
  have ha := h1 "temp" "temperature" 7 (by decide) (by decide)
  have hb := h2 "dust" (by decide) ?_
  · exact ⟨ha.1, ha.2, hb⟩
  · intro k' hk'
    have htab : ∀ p ∈ SENSOR_TO_ALIAS, p.2 ≠ "dust" := by decide
    exact absurd rfl (htab _ (alias_table_mem hk'))

/-- Claim C1 as stated is false when the input already holds both a raw key
and its aliased name: `temperature` is not in the alias table and is present
with value `5`, yet it is not exposed unchanged (processing `temp`
overwrites it with `7`). -/
theorem C1_counterexample :
    dget SENSOR_TO_ALIAS "temperature" = none
    ∧ dget ([("temperature", (5 : Int)), ("temp", 7)] : PyDict Int)
        "temperature" = some 5
    ∧ ¬ dget (attrDictInit [("temperature", (5 : Int)), ("temp", 7)])
        "temperature" = some 5 := by
  decide

/-- Claim C10: when the input holds both a raw key of the alias table and
its aliased name, the raw key's value wins: it is exposed under the aliased
name, and the raw key is absent from the result. -/
theorem C10_raw_value_overwrites_alias (attrs : PyDict α) (k a : String)
    (v w : α)
    (hnd : (dkeys attrs).Nodup)
    (hk : dget SENSOR_TO_ALIAS k = some a)
    (hv : dget attrs k = some v)
    (hw : dget attrs a = some w) :
    dget (attrDictInit attrs) a = some v
    ∧ dget (attrDictInit attrs) k = none := by
  constructor
  · apply foldl_attrStep_alias_value hk attrs attrs hnd (dget_mem hv)
    intro kv _ hne hcontra
    exact hne (alias_table_inj hcontra hk)
  · exact foldl_attrStep_raw_absent hk attrs attrs
      (Or.inl (mem_dkeys (dget_mem hv)))

/-- Concrete run of claim C10's theorem on the overlapping input
`{"temperature": 5, "temp": 7}`. -/
theorem C10_raw_value_overwrites_alias_witness :
    dget (attrDictInit [("temperature", (5 : Int)), ("temp", 7)])
      "temperature" = some 7
    ∧ dget (attrDictInit [("temperature", (5 : Int)), ("temp", 7)])
      "temp" = none :=
  C10_raw_value_overwrites_alias
    [("temperature", (5 : Int)), ("temp", 7)] "temp" "temperature" 7 5
    (by decide) (by decide) (by decide) (by decide)

/-- A value passed as an air-data keyword argument
(`AirDataParam = Union[datetime, bool, int, None]`, devices.py:14).
A `datetime` instant is its integer epoch second. -/
inductive AirParam where
  | pbool (b : Bool)
  | pint (n : Int)
  | pdate (t : Int)
  | pnone
  deriving DecidableEq

/-- `isinstance(x, bool)`. -/
def AirParam.isinstBool : AirParam → Bool
  | .pbool _ => true
  | _ => false

/-- `isinstance(x, int)` — Python `bool` is a subclass of `int`. -/
def AirParam.isinstInt : AirParam → Bool
  | .pbool _ => true
  | .pint _ => true
  | _ => false

/-- `hasattr(x, "now")` — among the admissible parameter values, exactly
the `datetime` instances have a `now` attribute. -/
def AirParam.isDatetime : AirParam → Bool
  | .pdate _ => true
  | _ => false

/-- The numeric value used in comparisons (`True == 1`, `False == 0`). -/
def AirParam.intVal : AirParam → Int
  | .pbool b => if b then 1 else 0
  | .pint n => n
  | .pdate t => t
  | .pnone => 0

/-- Python `str(x)` on a parameter value (instants keep their numeric
rendering; no claim inspects the serialized date text). -/
def AirParam.pyStr : AirParam → String
  | .pbool true => "True"
  | .pbool false => "False"
  | .pint n => toString n
  | .pdate t => toString t
  | .pnone => "None"

/-- Python truthiness of a parameter value. -/
def AirParam.truthy : AirParam → Bool
  | .pbool b => b
  | .pint n => decide (n ≠ 0)
  | .pdate _ => true
  | .pnone => false

/-- The admissible air-data keyword arguments; a `none` field is an
omitted keyword (the voluptuous schema marks every key `vol.Optional` and
rejects unknown keys). -/
structure AirKwargs where
  fahrenheit : Option AirParam := none
  desc : Option AirParam := none
  limit : Option AirParam := none
  from_date : Option AirParam := none
  to_date : Option AirParam := none
  deriving DecidableEq

/-- `max_limit` together with the `max_limit.get(kind, 1)` fallback
(devices.py:362, devices.py:403). -/
def max_limit (kind : String) : Int :=
  if kind = "raw" then 360
  else if kind = "5-min-avg" then 288
  else if kind = "15-min-avg" then 672
  else 1

/-- `max_hours` together with the `max_hours.get(kind, 24)` fallback
(devices.py:363, devices.py:366). -/
def max_hours (kind : String) : Int :=
  if kind = "raw" then 1
  else if kind = "15-min-avg" then 168
  else if kind = "5-min-avg" then 24
  else 24

/-- `vol.All(bool, vol.Coerce(str), vol.Lower)`, the validator of the
`fahrenheit` and `desc` keys (devices.py:397-400). -/
def validateBoolParam (p : AirParam) : Except String String :=
  if p.isinstBool then .ok p.pyStr.toLower
  else .error "expected bool"

/-- `vol.All(int, vol.Range(min=1, max=max_limit.get(kind, 1)),
vol.Coerce(str))`, the validator of the `limit` key (devices.py:401-405). -/
def validateLimitParam (kind : String) (p : AirParam) : Except String String :=
  if p.isinstInt then
    if 1 ≤ p.intVal ∧ p.intVal ≤ max_limit kind then .ok p.pyStr
    else .error "value must be at most the max limit for this kind"
  else .error "expected int"

/-- `validate_hours` (devices.py:365-392): resolve defaults
(`from_date = right_now - timedelta(hours=hour_limit)`,
`to_date = right_now`), require datetime values, reject future dates,
inverted ranges, and windows wider than `hour_limit` hours. -/
def validate_hours (kind : String) (right_now : Int)
    (fromParam toParam : Option AirParam) : Except String Unit :=
  let hour_limit := max_hours kind
  let from_date := fromParam.getD (.pdate (right_now - 3600 * hour_limit))
  let to_date := toParam.getD (.pdate right_now)
  if ¬ (from_date.isDatetime = true ∧ to_date.isDatetime = true) then
    .error "Expected from_date and/or to_date to be instances of datetime"
  else if from_date.intVal > right_now ∨ to_date.intVal > right_now then
    .error "Dates cannot be in the future!"
  else if from_date.intVal > to_date.intVal then
    .error "from_date cannot be greater than to_date."
  else if to_date.intVal - from_date.intVal > 3600 * hour_limit then
    .error "Difference between dates must be at most the hour limit."
  else
    .ok ()

/-- An `vol.Optional(key)` schema entry: an omitted key contributes
nothing; a supplied one must pass its validator and contributes one
serialized `(key, value)` pair. -/
def optValidate (key : String) (validate : AirParam → Except String String)
    (p? : Option AirParam) : Except String (List (String × String)) :=
  match p? with
  | none => pure []
  | some p => (validate p).map (fun s => [(key, s)])

/-- The `str(params[...])` serialization that `validate_hours` applies to
a supplied date (devices.py:386-390). -/
def serializeDate (key : String) (p? : Option AirParam) :
    List (String × String) :=
  match p? with
  | none => []
  | some p => [(key, p.pyStr)]

/-- `AwairBaseDevice._format_args` (devices.py:360-418): validate every
supplied keyword and serialize the validated values, producing the
`(key, value)` pairs handed to `urllib.parse.urlencode`. -/
def format_args (kind : String) (right_now : Int) (kwargs : AirKwargs) :
    Except String (List (String × String)) := do
  let fargs ← optValidate "fahrenheit" validateBoolParam kwargs.fahrenheit
  let dargs ← optValidate "desc" validateBoolParam kwargs.desc
  let largs ← optValidate "limit" (validateLimitParam kind) kwargs.limit
  let _ ← validate_hours kind right_now kwargs.from_date kwargs.to_date
  pure (fargs ++ dargs ++ largs
    ++ serializeDate "from_date" kwargs.from_date
    ++ serializeDate "to_date" kwargs.to_date)

/-- `AwairLocalDevice._format_args` (devices.py:480-489): a truthy
`fahrenheit` raises `ValueError`; a falsy supplied one is deleted from the
kwargs; then the base `_format_args` runs. -/
def local_format_args (kind : String) (right_now : Int)
    (kwargs : AirKwargs) : Except String (List (String × String)) :=
  match kwargs.fahrenheit with
  | some p =>
    if p.truthy then
      .error "fahrenheit is not supported for local sensors yet"
    else format_args kind right_now { kwargs with fahrenheit := none }
  | none => format_args kind right_now kwargs

/-- `urllib.parse.urlencode` on already-serialized string pairs
(percent-escaping is not modelled; no claim inspects escaped text). -/
def urlencode (args : List (String × String)) : String :=
  String.intercalate "&" (args.map (fun p => p.1 ++ "=" ++ p.2))

/-- A JSON value as produced by `resp.json()`; numbers are modelled as
integers (no claim computes with fractional values). -/
inductive JVal where
  | s (v : String)
  | i (v : Int)
  | b (v : Bool)
  | null
  | arr (vs : List JVal)
  | obj (fields : List (String × JVal))

/-- `AirData` (air_data.py:11-33).  The `datetime.strptime` parse of the
timestamp string is not modelled (no claim inspects the parsed instant);
the field keeps the wire string the parse consumed. -/
structure AirData where
  timestamp : String
  score : JVal
  sensors : PyDict JVal
  indices : PyDict JVal

/-- `{x["comp"]: x["value"] for x in rows}` — the dict comprehensions of
`AirData.__init__`; `none` models the crash when an entry lacks the keys
(restricted to string-valued `comp`, as `AttrDict` is keyed by strings). -/
def compValueDict (rows : List JVal) : Option (PyDict JVal) := do
  let pairs ← rows.mapM (fun j =>
    match j with
    | .obj f =>
      match dget f "comp", dget f "value" with
      | some (.s name), some v => some (name, v)
      | _, _ => none
    | _ => none)
  pure (pairs.foldl (fun d p => dset d p.1 p.2) [])

/-- `AirData.__init__` (air_data.py:19-33): read `timestamp` (a string fed
to `strptime`) and `score`, and build the `Sensors`/`Indices` AttrDicts
from the comp/value rows under `sensors`/`indices` (each defaulting to an
empty list when absent). -/
def airDataFromRow (row : JVal) : Option AirData :=
  match row with
  | .obj attrs =>
    match dget attrs "timestamp", dget attrs "score" with
    | some (.s ts), some score =>
      let sensorRows := match dget attrs "sensors" with
        | some (.arr l) => some l
        | none => some []
        | some _ => none
      let indexRows := match dget attrs "indices" with
        | some (.arr l) => some l
        | none => some []
        | some _ => none
      match sensorRows, indexRows with
      | some sl, some il =>
        match compValueDict sl, compValueDict il with
        | some sd, some idd =>
          some { timestamp := ts, score := score,
                 sensors := attrDictInit sd, indices := attrDictInit idd }
        | _, _ => none
      | _, _ => none
    | _, _ => none
  | _ => none

/-- `AwairDevice._extract_airdata` (devices.py:428-430):
`response.get("data", [])`; `none` models the crash when the response is
not an object or `data` is not an array. -/
def cloud_extract_airdata (response : JVal) : Option (List JVal) :=
  match response with
  | .obj fields =>
    match dget fields "data" with
    | none => some []
    | some (.arr l) => some l
    | some _ => none
  | _ => none

/-- `AwairLocalDevice._extract_airdata` (devices.py:463-478): reshape the
flat local response into the cloud shape — iterate `response.keys()` and
turn every key other than `timestamp`/`score` into a
`{comp: key, value: response[key]}` entry, then wrap a single
`{timestamp, score, sensors}` object in a one-element list. -/
def local_extract_airdata (response : JVal) : Option (List JVal) :=
  match response with
  | .obj fields =>
    match dget fields "timestamp", dget fields "score" with
    | some ts, some score =>
      let sensors := (dkeys fields).filterMap (fun k =>
        if k = "timestamp" ∨ k = "score" then none
        else (dget fields k).map (fun v =>
          JVal.obj [("comp", JVal.s k), ("value", v)]))
      some [JVal.obj
        [("timestamp", ts), ("score", score), ("sensors", JVal.arr sensors)]]
    | _, _ => none
  | _ => none

/-- `AwairBaseDevice.__get_airdata` (devices.py:350-358), with the variant
hooks (`_format_args`, `_extract_airdata`, the base URL), the network
fetch, and the current time as explicit parameters: build the URL
(appending the formatted query string), perform the query, then map every
extracted row through the AirData constructor.  Row shapes the Python
constructors would crash on yield an error. -/
def get_airdata
    (formatter :
      String → Int → AirKwargs → Except String (List (String × String)))
    (extract : JVal → Option (List JVal))
    (fetch : String → Except String JVal)
    (base_url kind : String) (right_now : Int) (kwargs : AirKwargs) :
    Except String (List AirData) := do
  let args ← formatter kind right_now kwargs
  let url := base_url ++ "/air-data/" ++ kind ++
    (if args.isEmpty then "" else "?" ++ urlencode args)
  let response ← fetch url
  match (extract response).bind (fun rows => rows.mapM airDataFromRow) with
  | some records => pure records
  | none => .error "malformed response"

/-- `AwairBaseDevice.air_data_latest` (devices.py:187-203): query the
`latest` kind with the `fahrenheit` flag and return the first record, or
`none` when the result list is empty. -/
def air_data_latest
    (extract : JVal → Option (List JVal))
    (fetch : String → Except String JVal)
    (base_url : String) (right_now : Int) (fahrenheit : Bool) :
    Except String (Option AirData) :=
  (get_airdata format_args extract fetch base_url "latest" right_now
      { fahrenheit := some (.pbool fahrenheit) }).map
    (fun response =>
      match response with
      | [] => none
      | r :: _ => some r)

theorem max_hours_pos (kind : String) : 0 < max_hours kind := by
  unfold max_hours
  split_ifs <;> norm_num

/-- With both dates omitted, `validate_hours` accepts the defaults
(`from_date = right_now - hour_limit`, `to_date = right_now`). -/
theorem validate_hours_defaults_ok (kind : String) (right_now : Int) :
    validate_hours kind right_now none none = .ok () := by
  have hm : (0 : Int) ≤ 3600 * max_hours kind := by
    have := max_hours_pos kind
    nlinarith
  simp only [validate_hours, Option.getD_none, AirParam.isDatetime,
    AirParam.intVal]
  have h2 : ¬(right_now - 3600 * max_hours kind > right_now
      ∨ right_now > right_now) := by omega
  have h3 : ¬(right_now - 3600 * max_hours kind > right_now) := by omega
  have h4 : ¬(right_now - (right_now - 3600 * max_hours kind)
      > 3600 * max_hours kind) := by omega
  simp [h2, h3, h4]

theorem except_bind_ok {ε α β : Type} {x : Except ε α} {f : α → Except ε β}
    {b : β} (h : (x >>= f) = .ok b) : ∃ a, x = .ok a ∧ f a = .ok b := by
  cases x with
  | error e => exact absurd h (by simp [Bind.bind, Except.bind])
  | ok a => exact ⟨a, rfl, by simpa [Bind.bind, Except.bind] using h⟩

/-- A formatter failure short-circuits `__get_airdata` before the fetch
function is ever consulted. -/
theorem get_airdata_formatter_error
    {formatter :
      String → Int → AirKwargs → Except String (List (String × String))}
    {extract : JVal → Option (List JVal)}
    {fetch : String → Except String JVal}
    {base_url kind : String} {right_now : Int} {kwargs : AirKwargs}
    {e : String}
    (h : formatter kind right_now kwargs = .error e) :
    get_airdata formatter extract fetch base_url kind right_now kwargs
      = .error e := by
  unfold get_airdata
  rw [h]
  rfl

/-- With only `limit` supplied, `_format_args` reduces to the limit
validator (the date defaults always pass). -/
theorem format_args_limit_only (kind : String) (right_now : Int)
    (p : AirParam) :
    format_args kind right_now { limit := some p }
      = (validateLimitParam kind p).map (fun s => [("limit", s)]) := by
  unfold format_args
  cases hv : validateLimitParam kind p with
  | error e =>
    simp [hv, optValidate, serializeDate, validate_hours_defaults_ok,
      Except.map, Bind.bind, Except.bind, pure, Except.pure]
  | ok s =>
    simp [hv, optValidate, serializeDate, validate_hours_defaults_ok,
      Except.map, Bind.bind, Except.bind, pure, Except.pure]

theorem validateLimitParam_ok_iff (kind : String) (p : AirParam) :
    (∃ s, validateLimitParam kind p = .ok s)
      ↔ (p.isinstInt = true ∧ 1 ≤ p.intVal ∧ p.intVal ≤ max_limit kind) := by
  unfold validateLimitParam
  split_ifs with h1 h2
  · exact ⟨fun _ => ⟨h1, h2⟩, fun _ => ⟨p.pyStr, rfl⟩⟩
  · constructor
    · rintro ⟨s, hs⟩
      exact absurd hs (by simp)
    · rintro ⟨-, hr⟩
      exact absurd hr h2
  · constructor
    · rintro ⟨s, hs⟩
      exact absurd hs (by simp)
    · rintro ⟨hi, -⟩
      exact absurd hi (by simpa using h1)

/-- A successful `optValidate` contributes only pairs for its own key. -/
theorem optValidate_ok_keys {key : String}
    {validate : AirParam → Except String String} {p? : Option AirParam}
    {args : List (String × String)}
    (h : optValidate key validate p? = .ok args) :
    ∀ k ∈ args.map Prod.fst, k = key := by
  cases p? with
  | none =>
    simp [optValidate, pure, Except.pure] at h
    subst h
    simp
  | some p =>
    simp only [optValidate] at h
    cases hv : validate p with
    | error e => rw [hv] at h; exact absurd h (by simp [Except.map])
    | ok s =>
      rw [hv] at h
      simp [Except.map] at h
      subst h
      simp

theorem serializeDate_keys (key : String) (p? : Option AirParam) :
    ∀ k ∈ (serializeDate key p?).map Prod.fst, k = key := by
  cases p? <;> simp [serializeDate]

/-- When `fahrenheit` is not among the kwargs, no `fahrenheit` pair can
appear among the serialized query arguments. -/
theorem format_args_no_fahrenheit {kind : String} {right_now : Int}
    {kwargs : AirKwargs} {args : List (String × String)}
    (hf : kwargs.fahrenheit = none)
    (h : format_args kind right_now kwargs = .ok args) :
    "fahrenheit" ∉ args.map Prod.fst := by
  unfold format_args at h
  obtain ⟨fargs, hfa, h⟩ := except_bind_ok h
  obtain ⟨dargs, hd, h⟩ := except_bind_ok h
  obtain ⟨largs, hl, h⟩ := except_bind_ok h
  obtain ⟨u, hvh, h⟩ := except_bind_ok h
  have hfargs : fargs = [] := by
    rw [hf] at hfa
    simpa [optValidate, pure, Except.pure] using hfa.symm
  have hargs : args = fargs ++ dargs ++ largs
      ++ serializeDate "from_date" kwargs.from_date
      ++ serializeDate "to_date" kwargs.to_date := by
    simpa [pure, Except.pure] using h.symm
  subst hargs
  subst hfargs
  intro hmem
  simp only [List.map_append, List.mem_append] at hmem
  rcases hmem with ((((hmem | hmem) | hmem) | hmem) | hmem)
  · simp at hmem
  · exact absurd (optValidate_ok_keys hd _ hmem) (by decide)
  · exact absurd (optValidate_ok_keys hl _ hmem) (by decide)
  · exact absurd (serializeDate_keys _ _ _ hmem) (by decide)
  · exact absurd (serializeDate_keys _ _ _ hmem) (by decide)

/-- Claim C3: for the raw/5-min-avg/15-min-avg kinds, `_format_args`
accepts `limit` exactly when it is an integer in `[1, max_limit kind]`
(max limits 360/288/672, both endpoints included), and any other limit
fails validation without the network fetch ever being consulted. -/
theorem C3_limit_validation (kind : String)
    (hkind : kind = "raw" ∨ kind = "5-min-avg" ∨ kind = "15-min-avg")
    (right_now : Int) (p : AirParam) :
    (max_limit "raw" = 360 ∧ max_limit "5-min-avg" = 288
      ∧ max_limit "15-min-avg" = 672)
    ∧ ((∃ args, format_args kind right_now { limit := some p } = .ok args)
        ↔ (p.isinstInt = true ∧ 1 ≤ p.intVal ∧ p.intVal ≤ max_limit kind))
    ∧ (¬(p.isinstInt = true ∧ 1 ≤ p.intVal ∧ p.intVal ≤ max_limit kind) →
        ∀ extract fetch base_url, ∃ e,
          get_airdata format_args extract fetch base_url kind right_now
            { limit := some p } = .error e) := by
  refine ⟨by decide, ?_, ?_⟩
  · rw [format_args_limit_only]
    constructor
    · rintro ⟨args, hargs⟩
      cases hv : validateLimitParam kind p with
      | error e => rw [hv] at hargs; exact absurd hargs (by simp [Except.map])
      | ok s => exact (validateLimitParam_ok_iff kind p).mp ⟨s, hv⟩
    · intro hcond
      obtain ⟨s, hs⟩ := (validateLimitParam_ok_iff kind p).mpr hcond
      exact ⟨[("limit", s)], by rw [hs]; rfl⟩
  · intro hcond extract fetch base_url
    have herr : ∃ e, validateLimitParam kind p = .error e := by
      cases hv : validateLimitParam kind p with
      | ok s =>
        exact absurd ((validateLimitParam_ok_iff kind p).mp ⟨s, hv⟩) hcond
      | error e => exact ⟨e, rfl⟩
    obtain ⟨e, he⟩ := herr
    refine ⟨e, get_airdata_formatter_error ?_⟩
    rw [format_args_limit_only, he]
    rfl

/-- Concrete run of claim C3's theorem: `limit=360` is accepted for the
raw kind, `limit=361` is rejected before any fetch. -/
theorem C3_limit_validation_witness :
    (∃ args,
      format_args "raw" 0 { limit := some (.pint 360) } = .ok args)
    ∧ (∃ e,
      get_airdata format_args (fun _ => some []) (fun _ => .ok JVal.null)
        "base" "raw" 0 { limit := some (.pint 361) } = .error e) := by
  constructor
  · exact (C3_limit_validation "raw" (Or.inl rfl) 0 (.pint 360)).2.1.mpr
      (by decide)
  · exact (C3_limit_validation "raw" (Or.inl rfl) 0 (.pint 361)).2.2
      (by decide) _ _ _

/-- Claim C4: `validate_hours` rejects inverted ranges (any kind), future
dates, and windows wider than `max_hours kind` (1h/24h/168h for
raw/5-min-avg/15-min-avg); a window of exactly that width is accepted, and
omitted dates default to `right_now - window` and `right_now`, which
always pass. -/
theorem C4_date_window_validation (kind : String) (right_now f t : Int) :
    (max_hours "raw" = 1 ∧ max_hours "5-min-avg" = 24
      ∧ max_hours "15-min-avg" = 168)
    ∧ (f > t → ∃ e, validate_hours kind right_now
        (some (.pdate f)) (some (.pdate t)) = .error e)
    ∧ ((f > right_now ∨ t > right_now) → ∃ e, validate_hours kind right_now
        (some (.pdate f)) (some (.pdate t)) = .error e)
    ∧ (t - f > 3600 * max_hours kind → ∃ e, validate_hours kind right_now
        (some (.pdate f)) (some (.pdate t)) = .error e)
    ∧ (f ≤ t → t ≤ right_now → t - f = 3600 * max_hours kind →
        validate_hours kind right_now (some (.pdate f)) (some (.pdate t))
          = .ok ())
    ∧ (validate_hours kind right_now none none
        = validate_hours kind right_now
            (some (.pdate (right_now - 3600 * max_hours kind)))
            (some (.pdate right_now)))
    ∧ validate_hours kind right_now none none = .ok () := by
  refine ⟨by decide, ?_, ?_, ?_, ?_, rfl,
    validate_hours_defaults_ok kind right_now⟩
  · intro h
    simp only [validate_hours, Option.getD_some, AirParam.isDatetime,
      AirParam.intVal]
    split_ifs <;> first | exact ⟨_, rfl⟩ | (exfalso; omega)
  · intro h
    simp only [validate_hours, Option.getD_some, AirParam.isDatetime,
      AirParam.intVal]
    split_ifs <;> first | exact ⟨_, rfl⟩ | (exfalso; omega)
  · intro h
    simp only [validate_hours, Option.getD_some, AirParam.isDatetime,
      AirParam.intVal]
    split_ifs <;> first | exact ⟨_, rfl⟩ | (exfalso; omega)
  · intro h1 h2 h3
    simp only [validate_hours, Option.getD_some, AirParam.isDatetime,
      AirParam.intVal]
    have c1 : ¬(f > right_now ∨ t > right_now) := by omega
    have c2 : ¬(f > t) := by omega
    have c3 : ¬(t - f > 3600 * max_hours kind) := by omega
    simp [c1, c2, c3]

/-- Concrete run of claim C4's theorem: a raw-kind window of exactly one
hour, ending before the call time, passes validation. -/
theorem C4_date_window_validation_witness :
    validate_hours "raw" 10000 (some (.pdate 2800)) (some (.pdate 6400))
      = .ok () :=
  (C4_date_window_validation "raw" 10000 2800 6400).2.2.2.2.1
    (by decide) (by decide) (by decide)

/-- Claim C8 as stated is false: supplying `fahrenheit=False` to the
LocalDevice formatter raises no validation error — the parameter is
silently deleted and formatting succeeds with an empty argument list. -/
theorem C8_counterexample :
    local_format_args "latest" 0 { fahrenheit := some (.pbool false) }
      = .ok [] := by
  rfl

/-- Claim C8 (amended): a supplied *truthy* `fahrenheit` raises a
validation error before the fetch function is ever consulted (a falsy one
is silently dropped instead), and a successful LocalDevice argument list
never contains a `fahrenheit` parameter. -/
theorem C8_local_fahrenheit (kind : String) (right_now : Int)
    (kwargs : AirKwargs) :
    (∀ p, kwargs.fahrenheit = some p → p.truthy = true →
      ∀ extract fetch base_url, ∃ e,
        get_airdata local_format_args extract fetch base_url kind right_now
          kwargs = .error e)
    ∧ (∀ args, local_format_args kind right_now kwargs = .ok args →
        "fahrenheit" ∉ args.map Prod.fst) := by
  constructor
  · intro p hp htruthy extract fetch base_url
    have herr : local_format_args kind right_now kwargs
        = .error "fahrenheit is not supported for local sensors yet" := by
      simp [local_format_args, hp, htruthy]
    exact ⟨_, get_airdata_formatter_error herr⟩
  · intro args hargs
    cases hp : kwargs.fahrenheit with
    | none =>
      simp only [local_format_args, hp] at hargs
      exact format_args_no_fahrenheit hp hargs
    | some p =>
      simp only [local_format_args, hp] at hargs
      by_cases ht : p.truthy
      · rw [if_pos ht] at hargs
        exact absurd hargs (by simp)
      · rw [if_neg ht] at hargs
        exact format_args_no_fahrenheit rfl hargs

/-- Concrete run of claim C8's theorem: `fahrenheit=True` errors before
any fetch; the successful `fahrenheit=False` run contains no fahrenheit
pair. -/
theorem C8_local_fahrenheit_witness :
    (∃ e, get_airdata local_format_args (fun _ => some [])
        (fun _ => .ok JVal.null) "http://a" "latest" 0
        { fahrenheit := some (.pbool true) } = .error e)
    ∧ "fahrenheit" ∉ (List.map Prod.fst ([] : List (String × String))) := by
  constructor
  · exact (C8_local_fahrenheit "latest" 0
      { fahrenheit := some (.pbool true) }).1 (.pbool true) rfl rfl _ _ _
  · exact (C8_local_fahrenheit "latest" 0
      { fahrenheit := some (.pbool false) }).2 [] (by rfl)

/-- Iterating `response.keys()` and indexing `response[k]` visits exactly
the response's pairs, whenever lookups agree with the pair list. -/
theorem filterMap_dkeys_eq (resp : PyDict JVal) :
    ∀ (fields : PyDict JVal),
      (∀ k v, (k, v) ∈ fields → dget resp k = some v) →
      (dkeys fields).filterMap (fun k =>
        if k = "timestamp" ∨ k = "score" then none
        else (dget resp k).map (fun v =>
          JVal.obj [("comp", JVal.s k), ("value", v)]))
      = fields.filterMap (fun p =>
          if p.1 = "timestamp" ∨ p.1 = "score" then none
          else some (JVal.obj [("comp", JVal.s p.1), ("value", p.2)])) := by
  intro fields
  induction fields with
  | nil => intro _; simp
  | cons p rest ih =>
    intro hagree
    obtain ⟨k, v⟩ := p
    have hk : dget resp k = some v := hagree k v (List.mem_cons_self _ _)
    have hrest := ih (fun k' v' h' => hagree k' v' (List.mem_cons_of_mem _ h'))
    by_cases htop : k = "timestamp" ∨ k = "score"
    · simp only [dkeys_cons, List.filterMap_cons]
      simp [htop, hrest]
    · simp only [dkeys_cons, List.filterMap_cons]
      simp [htop, hk, hrest]

/-- Claim C2: on a flat local response (unique keys) holding `timestamp`
and `score`, `_extract_airdata` returns a one-element list whose element
carries that timestamp and score and one `{comp: k, value: v}` sensors
entry for every other pair of the response, in response order. -/
theorem C2_local_extract_airdata (fields : PyDict JVal) (ts sc : JVal)
    (hnd : (dkeys fields).Nodup)
    (hts : dget fields "timestamp" = some ts)
    (hsc : dget fields "score" = some sc) :
    local_extract_airdata (.obj fields) = some [JVal.obj
      [("timestamp", ts), ("score", sc),
       ("sensors", JVal.arr (fields.filterMap (fun p =>
         if p.1 = "timestamp" ∨ p.1 = "score" then none
         else some (JVal.obj
           [("comp", JVal.s p.1), ("value", p.2)]))))]] := by
  simp only [local_extract_airdata, hts, hsc]
  rw [filterMap_dkeys_eq fields fields (fun k v h => mem_dget hnd h)]

/-- Concrete run of claim C2's theorem on a local response with one
sensor key. -/
theorem C2_local_extract_airdata_witness :
    local_extract_airdata (.obj
      [("timestamp", JVal.s "2020-01-01"), ("score", JVal.i 88),
       ("temp", JVal.i 21)])
    = some [JVal.obj
      [("timestamp", JVal.s "2020-01-01"), ("score", JVal.i 88),
       ("sensors", JVal.arr
         [JVal.obj [("comp", JVal.s "temp"), ("value", JVal.i 21)]])]] := by
  have h := C2_local_extract_airdata
    [("timestamp", JVal.s "2020-01-01"), ("score", JVal.i 88),
     ("temp", JVal.i 21)]
    (JVal.s "2020-01-01") (JVal.i 88) (by decide) rfl rfl
  simpa using h

/-- With only the `fahrenheit` flag supplied, `_format_args` produces the
single serialized lowercase boolean pair. -/
theorem format_args_fahrenheit_only (kind : String) (right_now : Int)
    (b : Bool) :
    format_args kind right_now { fahrenheit := some (.pbool b) }
      = .ok [("fahrenheit", (AirParam.pbool b).pyStr.toLower)] := by
  unfold format_args
  simp [optValidate, serializeDate, validateBoolParam, AirParam.isinstBool,
    validate_hours_defaults_ok, Except.map, Bind.bind, Except.bind,
    pure, Except.pure]

/-- Claim C6: when the latest-kind response yields an empty data array,
`air_data_latest` returns the no-data value (`none`) rather than an error
or an empty record; when the array is non-empty it returns the record
built from the first row. -/
theorem C6_air_data_latest
    (extract : JVal → Option (List JVal))
    (fetch : String → Except String JVal)
    (base_url : String) (right_now : Int) (fahrenheit : Bool) (resp : JVal)
    (hfetch : fetch (base_url ++ "/air-data/" ++ "latest"
        ++ ("?" ++ urlencode [("fahrenheit",
              (AirParam.pbool fahrenheit).pyStr.toLower)])) = .ok resp) :
    (extract resp = some [] →
      air_data_latest extract fetch base_url right_now fahrenheit
        = .ok none)
    ∧ (∀ r rest recs, extract resp = some (r :: rest) →
        (r :: rest).mapM airDataFromRow = some recs →
        ∃ rec, airDataFromRow r = some rec
          ∧ air_data_latest extract fetch base_url right_now fahrenheit
              = .ok (some rec)) := by
  have hrun : ∀ rows, extract resp = some rows →
      get_airdata format_args extract fetch base_url "latest" right_now
          { fahrenheit := some (.pbool fahrenheit) }
        = (match rows.mapM airDataFromRow with
           | some records => .ok records
           | none => .error "malformed response") := by
    intro rows hext
    unfold get_airdata
    rw [format_args_fahrenheit_only]
    simp [Bind.bind, Except.bind, hfetch, hext, Option.bind]
    rfl
  constructor
  · intro hext
    unfold air_data_latest
    rw [hrun [] hext]
    rfl
  · intro r rest recs hext hmap
    have hmap0 := hmap
    rw [List.mapM_cons] at hmap
    cases hr : airDataFromRow r with
    | none =>
      rw [hr] at hmap
      exact absurd hmap (by simp)
    | some rec =>
      rw [hr] at hmap
      have hex : ∃ rs, recs = rec :: rs := by
        cases hmm : rest.mapM airDataFromRow with
        | none => rw [hmm] at hmap; exact absurd hmap (by simp)
        | some rs =>
          rw [hmm] at hmap
          exact ⟨rs, by simpa using hmap.symm⟩
      obtain ⟨rs, hrs⟩ := hex
      refine ⟨rec, rfl, ?_⟩
      unfold air_data_latest
      rw [hrun (r :: rest) hext, hmap0, hrs]
      rfl

/-- Concrete run of claim C6's theorem: an empty `data` array yields
`none`; a one-row array yields the record of that row. -/
theorem C6_air_data_latest_witness :
    air_data_latest cloud_extract_airdata
      (fun _ => .ok (JVal.obj [("data", JVal.arr [])])) "b" 0 false
      = .ok none
    ∧ ∃ rec,
        airDataFromRow (JVal.obj
          [("timestamp", JVal.s "2020-01-01"), ("score", JVal.i 88)])
          = some rec
        ∧ air_data_latest cloud_extract_airdata
            (fun _ => .ok (JVal.obj [("data", JVal.arr
              [JVal.obj [("timestamp", JVal.s "2020-01-01"),
                         ("score", JVal.i 88)]])])) "b" 0 false
          = .ok (some rec) := by
  constructor
  · exact (C6_air_data_latest cloud_extract_airdata
      (fun _ => .ok (JVal.obj [("data", JVal.arr [])])) "b" 0 false
      (JVal.obj [("data", JVal.arr [])]) rfl).1 rfl
  · exact (C6_air_data_latest cloud_extract_airdata
      (fun _ => .ok (JVal.obj [("data", JVal.arr
        [JVal.obj [("timestamp", JVal.s "2020-01-01"),
                   ("score", JVal.i 88)]])])) "b" 0 false
      (JVal.obj [("data", JVal.arr
        [JVal.obj [("timestamp", JVal.s "2020-01-01"),
                   ("score", JVal.i 88)]])]) rfl).2
      (JVal.obj [("timestamp", JVal.s "2020-01-01"), ("score", JVal.i 88)])
      [] [{ timestamp := "2020-01-01", score := JVal.i 88,
            sensors := [], indices := [] }] rfl rfl

/-- The error taxonomy of `client.py` (the nested exception classes of
`AwairClient`, client.py:94-107). -/
inductive AwairErr where
  | queryError
  | authError
  | notFoundError
  | ratelimitError
  | genericError (message : String)
  deriving DecidableEq

/-- `a` starts with `n` (character lists). -/
def startsWithL : List Char → List Char → Bool
  | [], _ => true
  | _ :: _, [] => false
  | a :: as, b :: bs => a = b && startsWithL as bs

/-- `n` occurs as a contiguous run inside `h` (character lists). -/
def hasSubL (n : List Char) : List Char → Bool
  | [] => startsWithL n []
  | c :: rest => startsWithL n (c :: rest) || hasSubL n rest

/-- Python's `needle in hay` on strings: substring containment. -/
def pyInStr (needle hay : String) : Bool :=
  hasSubL needle.data hay.data

/-- Python's `repr` of a list of strings, as interpolated by the f-string
of the GenericError message (client.py:63-65). -/
def pyListRepr (msgs : List String) : String :=
  "[" ++ String.intercalate ", " (msgs.map (fun m => "'" ++ m ++ "'"))
    ++ "]"

/-- The loop of `__check_200_errors` (client.py:52-60) over the `errors`
array: a message containing "Too many requests" raises RatelimitError at
once; otherwise messages accumulate.  Entries are modelled as objects with
a string `message` field — the code indexes `error["message"]`, so an
entry without one crashes (`none`). -/
def scanErrors : List JVal → List String →
    Option (Except AwairErr (List String))
  | [], acc => some (.ok acc.reverse)
  | e :: rest, acc =>
    match e with
    | .obj f =>
      match dget f "message" with
      | some (.s m) =>
        if pyInStr "Too many requests" m then
          some (.error .ratelimitError)
        else scanErrors rest (m :: acc)
      | _ => none
    | _ => none

/-- `AwairClient.__check_200_errors` (client.py:45-67); `none` models a
crash on body shapes the Python code would throw on (the claims concern
JSON-object bodies). -/
def check_200_errors (json : JVal) : Option (Except AwairErr JVal) :=
  match json with
  | .obj fields =>
    match dget fields "errors" with
    | none => some (.ok json)
    | some (.arr errors) =>
      (scanErrors errors []).map (fun r =>
        match r with
        | .error err => .error err
        | .ok msgs =>
          if msgs.isEmpty then .ok json
          else .error (.genericError
            ("Error querying the Awair API: " ++ pyListRepr msgs)))
    | some _ => none
  | _ => none

/-- `AwairClient.__handle_error` (client.py:69-91). -/
def handle_error (status : Int) : AwairErr :=
  if status = 400 then .queryError
  else if status = 401 ∨ status = 403 then .authError
  else if status = 404 then .notFoundError
  else if status = 429 then .ratelimitError
  else .genericError "Unable to query the Awair API."

/-- The response dispatch of `AwairClient.query` (client.py:24-43): a
non-200 status goes to `__handle_error`, a 200 body to
`__check_200_errors`. -/
def query_dispatch (status : Int) (json : JVal) :
    Option (Except AwairErr JVal) :=
  if status ≠ 200 then some (.error (handle_error status))
  else check_200_errors json

theorem scanErrors_no_match :
    ∀ (msgs : List String) (acc : List String),
      (∀ m ∈ msgs, pyInStr "Too many requests" m = false) →
      scanErrors (msgs.map (fun m =>
          JVal.obj [("message", JVal.s m)])) acc
        = some (.ok (acc.reverse ++ msgs)) := by
  intro msgs
  induction msgs with
  | nil => intro acc _; simp [scanErrors]
  | cons m ms ih =>
    intro acc h
    have hm : pyInStr "Too many requests" m = false :=
      h m (List.mem_cons_self _ _)
    have ih' := ih (m :: acc) (fun x hx => h x (List.mem_cons_of_mem _ hx))
    simp [scanErrors, dget, hm, ih']

theorem scanErrors_match :
    ∀ (msgs : List String) (acc : List String),
      (∃ m ∈ msgs, pyInStr "Too many requests" m = true) →
      scanErrors (msgs.map (fun m =>
          JVal.obj [("message", JVal.s m)])) acc
        = some (.error .ratelimitError) := by
  intro msgs
  induction msgs with
  | nil => intro acc h; simp at h
  | cons m ms ih =>
    intro acc h
    by_cases hm : pyInStr "Too many requests" m = true
    · simp [scanErrors, dget, hm]
    · have hms : ∃ x ∈ ms, pyInStr "Too many requests" x = true := by
        rcases h with ⟨x, hx, hxs⟩
        rcases List.mem_cons.mp hx with hx | hx
        · exact absurd (hx ▸ hxs) hm
        · exact ⟨x, hx, hxs⟩
      have ih' := ih (m :: acc) hms
      simp [scanErrors, dget, hm, ih']

/-- Claim C5: the HTTP status dispatch of `AwairClient.query` and the
200-with-errors-array handling match the specified taxonomy. -/
theorem C5_query_error_taxonomy (status : Int) (json : JVal) :
    (status = 400 →
      query_dispatch status json = some (.error .queryError))
    ∧ (status = 401 ∨ status = 403 →
      query_dispatch status json = some (.error .authError))
    ∧ (status = 404 →
      query_dispatch status json = some (.error .notFoundError))
    ∧ (status = 429 →
      query_dispatch status json = some (.error .ratelimitError))
    ∧ (status ≠ 200 → status ≠ 400 → status ≠ 401 → status ≠ 403 →
        status ≠ 404 → status ≠ 429 →
        query_dispatch status json = some (.error
          (.genericError "Unable to query the Awair API.")))
    ∧ (∀ fields, status = 200 → json = .obj fields →
        (dget fields "errors" = none →
          query_dispatch status json = some (.ok json))
        ∧ (∀ msgs, dget fields "errors"
              = some (.arr (msgs.map (fun m =>
                  JVal.obj [("message", JVal.s m)]))) →
            ((∃ m ∈ msgs, pyInStr "Too many requests" m = true) →
              query_dispatch status json
                = some (.error .ratelimitError))
            ∧ ((∀ m ∈ msgs, pyInStr "Too many requests" m = false) →
                msgs ≠ [] →
                query_dispatch status json = some (.error (.genericError
                  ("Error querying the Awair API: " ++ pyListRepr msgs))))
            ∧ (msgs = [] →
                query_dispatch status json = some (.ok json)))) := by
  refine ⟨?_, ?_, ?_, ?_, ?_, ?_⟩
  · intro h; subst h; rfl
  · intro h; rcases h with h | h <;> subst h <;> rfl
  · intro h; subst h; rfl
  · intro h; subst h; rfl
  · intro h200 h400 h401 h403 h404 h429
    simp [query_dispatch, handle_error, h200, h400, h401, h403, h404, h429]
  · intro fields h200 hjson
    subst h200
    subst hjson
    have hq : query_dispatch 200 (.obj fields)
        = check_200_errors (.obj fields) := by
      simp [query_dispatch]
    refine ⟨?_, ?_⟩
    · intro herr
      rw [hq]
      simp [check_200_errors, herr]
    · intro msgs herr
      refine ⟨?_, ?_, ?_⟩
      · intro hmatch
        rw [hq]
        simp only [check_200_errors, herr]
        rw [scanErrors_match msgs [] hmatch]
        rfl
      · intro hno hne
        rw [hq]
        simp only [check_200_errors, herr]
        rw [scanErrors_no_match msgs [] hno]
        simp [hne]
      · intro hnil
        subst hnil
        rw [hq]
        simp [check_200_errors, herr, scanErrors]

/-- Concrete run of claim C5's theorem: 429 and 404 map to their errors,
and a 200 body whose errors array holds a rate-limit message raises
RatelimitError despite the 200 status. -/
theorem C5_query_error_taxonomy_witness :
    query_dispatch 429 JVal.null = some (.error .ratelimitError)
    ∧ query_dispatch 404 JVal.null = some (.error .notFoundError)
    ∧ query_dispatch 200 (.obj [("errors", JVal.arr
        [JVal.obj [("message",
          JVal.s "Too many requests, slow down")]])])
      = some (.error .ratelimitError) := by
  refine ⟨(C5_query_error_taxonomy 429 JVal.null).2.2.2.1 rfl,
    (C5_query_error_taxonomy 404 JVal.null).2.2.1 rfl, ?_⟩
  have h := ((C5_query_error_taxonomy 200 (.obj [("errors", JVal.arr
      [JVal.obj [("message", JVal.s "Too many requests, slow down")]])])
    ).2.2.2.2.2 _ rfl rfl).2 ["Too many requests, slow down"] (by rfl)
  exact h.1 ⟨"Too many requests, slow down", by simp, by decide⟩

/-- The state `AwairClient.__init__` (client.py:11-21) stores: the headers
dict rendered once from the access token. -/
structure AwairClientState where
  headers : List (String × String)
  deriving DecidableEq

/-- `AwairClient.__init__` (client.py:11-21): `self._headers` is built from
`"Bearer %s" % access_token` at construction time. -/
def awair_client_init (access_token : String) : AwairClientState :=
  { headers := [("Authorization", "Bearer " ++ access_token),
                ("Content-Type", "application/json")] }

/-- The headers `AwairClient.query` (client.py:24-43) attaches to its GET:
always the stored `self._headers`.  `provider_token_now` models the value
`AwairAuth.get_bearer_token` (auth.py:6-24) would return at call time —
the shipped query method never consults it. -/
def query_sent_headers (client : AwairClientState)
    (provider_token_now : String) : List (String × String) :=
  client.headers

/-- Claim C7 fails on the shipped client (and the repository's own tests
and `auth.py` show the authenticator design was the intent): with the
provider's token changed from "token-a" to "token-b" between two calls,
both calls send the identical Authorization header rendered from the
construction-time token. -/
theorem C7_token_cached_at_construction :
    query_sent_headers (awair_client_init "token-a") "token-a"
      = query_sent_headers (awair_client_init "token-a") "token-b"
    ∧ dget (query_sent_headers (awair_client_init "token-a") "token-b")
        "Authorization" = some "Bearer token-a" := by
  exact ⟨rfl, rfl⟩

/-- The identity fields of a device (devices.py:43-54). -/
structure DeviceIdent where
  device_id : Int
  uuid : String
  device_type : String
  deriving DecidableEq

/-- `AwairBaseDevice.__init__` (devices.py:135-150) restricted to the
identity fields: `deviceId`, `deviceUUID` and `deviceType` are copied
verbatim from the attributes. -/
def cloud_device_ident (deviceId : Int) (deviceUUID deviceType : String) :
    DeviceIdent :=
  { device_id := deviceId, uuid := deviceUUID, device_type := deviceType }

/-- `s.split("_", 1)` on the character list: the part before the first
underscore and everything after it, or `none` when no underscore exists
(in which case the two-element unpacking in the source raises
ValueError). -/
def splitUnderscore1 : List Char → Option (List Char × List Char)
  | [] => none
  | c :: rest =>
    if c = '_' then some ([], rest)
    else
      match splitUnderscore1 rest with
      | some (front, back) => some (c :: front, back)
      | none => none

/-- One step of a decimal parse: accumulate a digit or fail. -/
def pyIntAux : List Char → Nat → Option Nat
  | [], acc => some acc
  | c :: rest, acc =>
    if c.isDigit then pyIntAux rest (10 * acc + (c.toNat - 48)) else none

/-- Python `int(s)` restricted to plain decimal digit strings (`int` also
tolerates a sign, surrounding whitespace and inner underscores; no claim
needs those, and such strings are never canonical renderings anyway). -/
def pyInt (s : String) : Option Int :=
  match s.data with
  | [] => none
  | l => (pyIntAux l 0).map Int.ofNat

/-- `AwairLocalDevice.__init__` (devices.py:442-457) restricted to the
identity fields: split `device_uuid` at the first underscore, parse the
remainder as the integer device id, and store the original string as the
uuid. -/
def local_device_ident (device_uuid : String) : Option DeviceIdent :=
  match splitUnderscore1 device_uuid.data with
  | none => none
  | some (dt, rest) =>
    match pyInt (String.mk rest) with
    | none => none
    | some n =>
      some { device_id := n, uuid := device_uuid,
             device_type := String.mk dt }

theorem splitUnderscore1_eq :
    ∀ (l front back : List Char),
      splitUnderscore1 l = some (front, back) →
      l = front ++ '_' :: back := by
  intro l
  induction l with
  | nil => intro front back h; simp [splitUnderscore1] at h
  | cons c rest ih =>
    intro front back h
    by_cases hc : c = '_'
    · subst hc
      simp only [splitUnderscore1, if_pos rfl, Option.some.injEq,
        Prod.mk.injEq] at h
      obtain ⟨rfl, rfl⟩ := h
      rfl
    · simp only [splitUnderscore1, if_neg hc] at h
      cases hs : splitUnderscore1 rest with
      | none => rw [hs] at h; exact absurd h (by simp)
      | some p =>
        obtain ⟨p1, p2⟩ := p
        rw [hs] at h
        simp only [Option.some.injEq, Prod.mk.injEq] at h
        obtain ⟨rfl, rfl⟩ := h
        simp [ih p1 p2 hs]

theorem string_mk_append (a b : List Char) :
    String.mk a ++ String.mk b = String.mk (a ++ b) := rfl

/-- Claim C9 as stated fails for cloud devices: the constructor copies
`deviceUUID` verbatim, so attributes carrying an id-inconsistent uuid
yield a device whose uuid is not `"{device_type}_{device_id}"`. -/
theorem C9_counterexample :
    (cloud_device_ident 1 "awair_2" "awair").uuid
      ≠ (cloud_device_ident 1 "awair_2" "awair").device_type ++ "_"
        ++ toString (cloud_device_ident 1 "awair_2" "awair").device_id := by
  decide

/-- Claim C9 (amended): `device_id` is an integer by construction; a cloud
device copies `deviceId`/`deviceUUID`/`deviceType` verbatim, so its uuid
has the form "{device_type}_{device_id}" exactly when the supplied
attributes already do; a local device's uuid is the supplied
`device_uuid`, whose prefix before the first underscore is the
device_type and whose remainder parses to device_id — so the invariant
holds whenever the remainder is the canonical decimal rendering of the
id. -/
theorem C9_device_identity (deviceId : Int)
    (deviceUUID deviceType u : String) (d : DeviceIdent)
    (hl : local_device_ident u = some d) :
    (cloud_device_ident deviceId deviceUUID deviceType
       = { device_id := deviceId, uuid := deviceUUID,
           device_type := deviceType })
    ∧ (d.uuid = u
        ∧ ∃ rest, u = d.device_type ++ "_" ++ rest
            ∧ pyInt rest = some d.device_id
            ∧ (rest = toString d.device_id →
                d.uuid = d.device_type ++ "_" ++ toString d.device_id)) := by
  refine ⟨rfl, ?_⟩
  unfold local_device_ident at hl
  split at hl
  · exact absurd hl (by simp)
  · next dt rest hs =>
    split at hl
    · exact absurd hl (by simp)
    · next n hp =>
      injection hl with hd
      subst hd
      have hu : u = String.mk (dt ++ '_' :: rest) := by
        have hdata := splitUnderscore1_eq u.data dt rest hs
        calc u = String.mk u.data := rfl
        _ = String.mk (dt ++ '_' :: rest) := by rw [hdata]
      refine ⟨rfl, String.mk rest, ?_, hp, ?_⟩
      · show u = String.mk dt ++ String.mk ['_'] ++ String.mk rest
        rw [string_mk_append, string_mk_append, hu]
        exact congrArg String.mk (by simp)
      · intro hcanon
        rw [← hcanon]
        show u = String.mk dt ++ String.mk ['_'] ++ String.mk rest
        rw [string_mk_append, string_mk_append, hu]
        exact congrArg String.mk (by simp)

/-- Concrete run of claim C9's theorem: a cloud device built from
consistent attributes, and the local device `awair-r2_42`. -/
theorem C9_device_identity_witness :
    (cloud_device_ident 7 "awair_7" "awair"
      = { device_id := 7, uuid := "awair_7", device_type := "awair" })
    ∧ ({ device_id := 42, uuid := "awair-r2_42",
         device_type := "awair-r2" } : DeviceIdent).uuid = "awair-r2_42"
    ∧ ∃ rest, "awair-r2_42" = "awair-r2" ++ "_" ++ rest
        ∧ pyInt rest = some 42 := by
  have h := C9_device_identity 7 "awair_7" "awair" "awair-r2_42"
    { device_id := 42, uuid := "awair-r2_42", device_type := "awair-r2" }
    (by rfl)
  obtain ⟨rest, hrest, hparse, -⟩ := h.2.2
  exact ⟨h.1, h.2.1, rest, hrest, hparse⟩

end PythonAwair
